import Mathlib

/-!
Shallow embedding of the life-simulation engine (trait system, neural-network
weight serialization, creature combat and per-tick update, world scheduling and
ecosystem balancing, genetic algorithm), translated from the JavaScript source.
Machine numbers are modelled as exact rationals; the possibility of a JS
`undefined` slot in a weight array is modelled with `Option`.
-/

namespace LifeSim

/-! ## Trait system (src/engine/Traits.js) -/

/-- A trait vector: the fixed schema of heritable scalars
(`TRAIT_DEFINITIONS` enumerates exactly these four keys). -/
structure Traits where
  size : ℚ
  metabolism : ℚ
  aggression : ℚ
  vision : ℚ
  deriving Repr, DecidableEq

/-- `clamp(value, min, max)` helper from Traits.js:
`Math.max(min, Math.min(max, value))`. -/
def clamp (value lo hi : ℚ) : ℚ := max lo (min hi value)

/-- Declared ranges from `TRAIT_DEFINITIONS`:
size [0.6, 1.4], metabolism [0.5, 1.5], aggression [0, 1], vision [0.5, 1.5]. -/
def traitsInRange (t : Traits) : Prop :=
  3/5 ≤ t.size ∧ t.size ≤ 7/5 ∧
  1/2 ≤ t.metabolism ∧ t.metabolism ≤ 3/2 ∧
  0 ≤ t.aggression ∧ t.aggression ≤ 1 ∧
  1/2 ≤ t.vision ∧ t.vision ≤ 3/2

instance (t : Traits) : Decidable (traitsInRange t) := by
  unfold traitsInRange; infer_instance

/-- `mutateTraits(traits, rate, strength)` from Traits.js.  For each of the
four keys (in `TRAIT_DEFINITIONS` order) the draw `Math.random()` is supplied
by `rand` and the Gaussian sample `gaussianRandom()` by `noise`; when
`rand k < rate` the trait is set to
`clamp(value + noise*strength, def.min, def.max)`, otherwise kept. -/
def mutateTraits (t : Traits) (rate strength : ℚ)
    (rand : Fin 4 → ℚ) (noise : Fin 4 → ℚ) : Traits where
  size := if rand 0 < rate then clamp (t.size + noise 0 * strength) (3/5) (7/5) else t.size
  metabolism := if rand 1 < rate then clamp (t.metabolism + noise 1 * strength) (1/2) (3/2) else t.metabolism
  aggression := if rand 2 < rate then clamp (t.aggression + noise 2 * strength) 0 1 else t.aggression
  vision := if rand 3 < rate then clamp (t.vision + noise 3 * strength) (1/2) (3/2) else t.vision

/-- `crossoverTraits(traits1, traits2)` from Traits.js: each trait gets its own
fresh blend factor `Math.random()` (supplied by `blend`) and is interpolated as
`t1*b + t2*(1-b)`. -/
def crossoverTraits (t1 t2 : Traits) (blend : Fin 4 → ℚ) : Traits where
  size := t1.size * blend 0 + t2.size * (1 - blend 0)
  metabolism := t1.metabolism * blend 1 + t2.metabolism * (1 - blend 1)
  aggression := t1.aggression * blend 2 + t2.aggression * (1 - blend 2)
  vision := t1.vision * blend 3 + t2.vision * (1 - blend 3)

/-- The derived-stats record produced by `calculateTraitEffects`. -/
structure TraitEffects where
  maxEnergy : ℚ
  maxSpeed : ℚ
  energyCostBase : ℚ
  energyCostMove : ℚ
  sensorLength : ℚ
  radius : ℚ
  attackPower : ℚ
  attackCooldown : ℚ
  deriving Repr, DecidableEq

/-- `calculateTraitEffects(traits)` from Traits.js, field for field. -/
def calculateTraitEffects (t : Traits) : TraitEffects where
  maxEnergy := 100 + (t.size - 1) * 80
  maxSpeed := 4 * (6/5 - t.size * (3/10)) * t.metabolism
  energyCostBase := (5/100) * t.metabolism * t.size
  energyCostMove := (2/100) * t.metabolism
  sensorLength := 150 * t.vision
  radius := 12 * t.size
  attackPower := 30 * t.aggression * t.size
  attackCooldown := 60 / t.metabolism

/-! ## NeuralNetwork weight serialization (src/engine/NeuralNetwork.js)

A weight slot is a JS number or `undefined`; `none` models `undefined`
(reading past the end of a JS array yields `undefined`). -/

/-- One stored JS number slot (`none` = `undefined`). -/
abbrev Entry := Option ℚ

/-- One layer of the network: `this.layers[l]` (one weight row per neuron)
together with `this.biases[l]`. -/
structure Layer where
  weights : List (List Entry)
  biases : List Entry
  deriving Repr, DecidableEq

/-- The mutable state of a `NeuralNetwork`: its ordered layers. -/
structure NeuralNet where
  layers : List Layer
  deriving Repr, DecidableEq

/-- The flat entries contributed by one layer in `getWeights` order: all
neuron rows of the layer, then the layer's biases. -/
def layerFlat (L : Layer) : List Entry := L.weights.flatten ++ L.biases

/-- `getWeights()`: flatten all weight matrices and biases, layer by layer. -/
def NeuralNet.getWeights (n : NeuralNet) : List Entry :=
  (n.layers.map layerFlat).flatten

/-- `getWeightCount()`: `this.getWeights().length`. -/
def NeuralNet.weightCount (n : NeuralNet) : ℕ := n.getWeights.length

/-- Sequential slot filling, modelling the `weights[idx++]` reads of
`setWeights`: the template list supplies the number of slots to fill, the
source list is consumed positionally, and reads past its end produce
`undefined` (`none`).  Returns the filled slots and the unconsumed source. -/
def fillRow : List Entry → List Entry → List Entry × List Entry
  | [], ws => ([], ws)
  | _ :: t, [] =>
      let r := fillRow t []
      (none :: r.1, r.2)
  | _ :: t, w :: ws =>
      let r := fillRow t ws
      (w :: r.1, r.2)

/-- Fill every neuron row of a layer's weight matrix in order. -/
def fillRows : List (List Entry) → List Entry → List (List Entry) × List Entry
  | [], ws => ([], ws)
  | row :: rows, ws =>
      let r1 := fillRow row ws
      let r2 := fillRows rows r1.2
      (r1.1 :: r2.1, r2.2)

/-- Rebuild one layer from the running flat vector: first the weight rows,
then the biases (the order of the `setWeights` loops). -/
def fillLayer (L : Layer) (ws : List Entry) : Layer × List Entry :=
  let rw := fillRows L.weights ws
  let rb := fillRow L.biases rw.2
  (⟨rw.1, rb.1⟩, rb.2)

/-- Rebuild all layers in order. -/
def fillLayers : List Layer → List Entry → List Layer × List Entry
  | [], ws => ([], ws)
  | L :: ls, ws =>
      let r1 := fillLayer L ws
      let r2 := fillLayers ls r1.2
      (r1.1 :: r2.1, r2.2)

/-- `setWeights(weights)`: write the supplied flat vector positionally into
the existing architecture.  The source performs no length check: leftover
entries of a long vector are ignored, and a short vector leaves the
remaining slots `undefined`. -/
def NeuralNet.setWeights (n : NeuralNet) (ws : List Entry) : NeuralNet :=
  ⟨(fillLayers n.layers ws).1⟩

/-! ## Food (src/world/Food.js) -/

/-- `'plant'` or `'meat'`. -/
inductive FoodType where
  | plant : FoodType
  | meat : FoodType
  deriving Repr, DecidableEq

/-- A `Food` resource.  `lifetime` is `some n` for meat (`800` when spawned by
a hunt, `300` otherwise) and `none` for plants (`Infinity`: plants never
spoil). -/
structure Food where
  x : ℚ
  y : ℚ
  energy : ℚ
  type : FoodType
  isPredatorMeat : Bool
  radius : ℚ
  consumed : Bool
  age : ℕ
  lifetime : Option ℕ
  deriving Repr, DecidableEq

/-- The `Food` constructor: `new Food(x, y, energy, type, isPredatorMeat,
fromHunt)`. -/
def mkFood (x y energy : ℚ) (type : FoodType) (isPredatorMeat fromHunt : Bool) : Food where
  x := x
  y := y
  energy := energy
  type := type
  isPredatorMeat := isPredatorMeat
  radius := if type = FoodType.meat then 6 + energy / 8 else 5 + energy / 5
  consumed := false
  age := 0
  lifetime := if type = FoodType.meat then some (if fromHunt then 800 else 300) else none

/-- `World.spawnMeat(x, y, fromPredator, fromHunt)`: energy is
`25 + Math.random() * 20` with the draw supplied by `r`. -/
def spawnMeat (x y : ℚ) (r : ℚ) (fromPredator fromHunt : Bool) : Food :=
  mkFood x y (25 + r * 20) FoodType.meat fromPredator fromHunt

/-- `World.addRandomFood(type)` energy policy: meat `20 + r*25`,
plants `5 + r*15` (`r = Math.random()`). -/
def randomFoodEnergy (type : FoodType) (r : ℚ) : ℚ :=
  if type = FoodType.meat then 20 + r * 25 else 5 + r * 15

/-- An energy value producible by the world's spawn policy
(`addRandomFood` with either type, or `spawnMeat`), for some draw
`r = Math.random() ∈ [0,1)`. -/
def spawnedEnergy (e : ℚ) : Prop :=
  ∃ r : ℚ, 0 ≤ r ∧ r < 1 ∧
    (e = 5 + r * 15 ∨ e = 20 + r * 25 ∨ e = 25 + r * 20)

/-! ## Creature (src/world/Creature.js)

The fields of the `Creature` constructor that take part in the
energy / fitness / combat accounting.  Rendering state (hue, trail,
flashTime), the id counter and the back-reference to the world are omitted;
position is carried since combat range checks use it. -/

structure Creature where
  x : ℚ
  y : ℚ
  isPredator : Bool
  traits : Traits
  radius : ℚ
  energy : ℚ
  maxEnergy : ℚ
  fitness : ℚ
  foodEaten : ℕ
  kills : ℕ
  attackPower : ℚ
  attackCooldown : ℚ
  attackCooldownMax : ℚ
  isElite : Bool
  brain : NeuralNet
  deriving Repr, DecidableEq

/-- `isAlive()`: `this.energy > 0`. -/
def Creature.isAliveB (c : Creature) : Bool := decide (0 < c.energy)

/-- The constructor's derived initialization: stats come from
`calculateTraitEffects(this.traits)` and `this.energy = effects.maxEnergy * 0.8`. -/
def mkCreature (x y : ℚ) (isPredator : Bool) (t : Traits) (brain : NeuralNet) : Creature :=
  let effects := calculateTraitEffects t
  { x := x
    y := y
    isPredator := isPredator
    traits := t
    radius := effects.radius
    energy := effects.maxEnergy * (8/10)
    maxEnergy := effects.maxEnergy
    fitness := 0
    foodEaten := 0
    kills := 0
    attackPower := effects.attackPower
    attackCooldown := 0
    attackCooldownMax := effects.attackCooldown
    isElite := false
    brain := brain }

/-- `tryAttack()` (Creature.js): `self` is the attacker, `prey` its
`nearestCreature` at this tick, `meatRand` the `Math.random()` draw consumed
by `spawnMeat` if the prey dies.  The JS range test
`sqrt(dx*dx+dy*dy) < attackRange` is expressed in the equivalent squared form
(both sides are nonnegative for the radii the simulation produces).
Returns the updated attacker, the updated prey, and the spawned meat, if any.
The flash-time visual effect is not modelled. -/
def tryAttack (self prey : Creature) (meatRand : ℚ) : Creature × Creature × Option Food :=
  if prey.isPredator then (self, prey, none)
  else
    let dx := prey.x - self.x
    let dy := prey.y - self.y
    let attackRange := self.radius + prey.radius + 15
    if dx ^ 2 + dy ^ 2 < attackRange ^ 2 then
      let damage := self.attackPower
      let prey1 : Creature := { prey with energy := prey.energy - damage }
      let self1 : Creature := { self with attackCooldown := self.attackCooldownMax }
      if prey1.energy ≤ 0 then
        let self2 : Creature :=
          { self1 with
            energy := min self1.maxEnergy (self1.energy + prey1.maxEnergy * (8/10))
            fitness := self1.fitness + 150 + prey1.fitness * (1/2) + (self1.kills : ℚ) * 20
            kills := self1.kills + 1 }
        -- `this.world.spawnMeat(prey.x, prey.y)`: the optional arguments
        -- `fromPredator` and `fromHunt` are NOT passed, so both default to false.
        (self2, prey1, some (spawnMeat prey1.x prey1.y meatRand false false))
      else (self1, prey1, none)
    else (self, prey, none)

/-- The energy / fitness / foodEaten effects of one `Creature.update()` call
on a living creature.  `cost` is the total energy drawn by the act/physics
phase of this tick (`energyCostBase + |speed| * energyCostMove`, plus
`0.3 * metabolism` when the boost output fired); `eaten` lists the energy
values of the food items collected in the collision loop, in order.  Movement
and the sensing/thinking pipeline change neither energy nor fitness and are
not modelled; the attack branch of `act()` fires only for predators and is
modelled separately by `tryAttack`.

`eatStep` is one iteration of the food-collision loop:
`energy = min(maxEnergy, energy + food.energy); foodEaten++;
fitness += food.energy`. -/
def eatStep (acc : Creature) (e : ℚ) : Creature :=
  { acc with
    energy := min acc.maxEnergy (acc.energy + e)
    foodEaten := acc.foodEaten + 1
    fitness := acc.fitness + e }

/-- One `Creature.update()` call on a living creature (see `eatStep` above
for the conventions). -/
def creatureTick (c : Creature) (cost : ℚ) (eaten : List ℚ) : Creature :=
  let c0 : Creature :=
    { c with attackCooldown := if 0 < c.attackCooldown then c.attackCooldown - 1 else c.attackCooldown }
  let c1 : Creature := { c0 with energy := c0.energy - cost }
  let c2 : Creature := eaten.foldl eatStep c1
  { c2 with fitness := c2.fitness + 1/100 }

/-! ## GeneticAlgorithm (src/engine/GeneticAlgorithm.js)

Randomness is supplied through indexed oracle streams; `Math.floor(
Math.random() * len)` is modelled as `raw % len` for an arbitrary
oracle-chosen natural `raw`. -/

/-- Constructor options of `GeneticAlgorithm` that `evolve` consumes
(`elitismRate` is stored by the source constructor but never read by
`evolve`, so it is omitted). -/
structure GAConfig where
  mutationRate : ℚ
  mutationStrength : ℚ
  tournamentSize : ℕ
  traitMutationRate : ℚ
  traitMutationStrength : ℚ
  minSpeciesCount : ℕ
  speciesEliteCount : ℕ
  adaptiveMutationMultiplier : ℚ

/-- The `createCreature` factory passed to `evolve`: one call with
`{isPredator, traits}` options produces exactly one creature. -/
abbrev Factory := Bool → Traits → Creature

/-- Random draws consumed by one `evolve` call.  Streams are indexed by the
tournament-child number (`blend`, `traitMutRand`, ..., `flipRand`), by the
tournament-draw number and loop iteration (`tournRand`), or by the
rescue-slot number (`rescuePred*` / `rescuePrey*`). -/
structure EvOracle where
  tournRand : ℕ → ℕ → ℕ
  blend : ℕ → Fin 4 → ℚ
  traitMutRand : ℕ → Fin 4 → ℚ
  traitMutNoise : ℕ → Fin 4 → ℚ
  weightCoin : ℕ → ℕ → Bool
  weightMutRand : ℕ → ℕ → ℚ
  weightMutNoise : ℕ → ℕ → ℚ
  speciesRand : ℕ → ℚ
  flipRand : ℕ → ℚ
  rescuePredTraitRand : ℕ → Fin 4 → ℚ
  rescuePredTraitNoise : ℕ → Fin 4 → ℚ
  rescuePredWRand : ℕ → ℕ → ℚ
  rescuePredWNoise : ℕ → ℕ → ℚ
  rescuePreyTraitRand : ℕ → Fin 4 → ℚ
  rescuePreyTraitNoise : ℕ → Fin 4 → ℚ
  rescuePreyWRand : ℕ → ℕ → ℚ
  rescuePreyWNoise : ℕ → ℕ → ℚ

/-- `GeneticAlgorithm.mutate` / `mutateAdaptive` body: per-index Gaussian
mutation of a flat weight vector at the given rate and strength. -/
def mutateWeightsFrom (rate strength : ℚ) (randP noiseF : ℕ → ℚ) :
    ℕ → List Entry → List Entry
  | _, [] => []
  | i, w :: ws =>
      (if randP i < rate then w.map (fun v => v + noiseF i * strength) else w) ::
        mutateWeightsFrom rate strength randP noiseF (i + 1) ws

/-- `mutate(weights)` starting at index 0. -/
def mutateWeights (rate strength : ℚ) (randP noiseF : ℕ → ℚ) (ws : List Entry) : List Entry :=
  mutateWeightsFrom rate strength randP noiseF 0 ws

/-- `GeneticAlgorithm.crossover(weights1, weights2)`: per-index coin flip;
the loop runs over `weights1.length`, so a shorter `weights2` contributes
`undefined` past its end. -/
def crossoverWeights (ws1 ws2 : List Entry) (coin : ℕ → Bool) : List Entry :=
  (List.range ws1.length).map
    (fun i => if coin i then ws1.getD i none else ws2.getD i none)

/-- One iteration of the `tournamentSelect` loop: draw a uniform index and
keep the candidate if its fitness strictly exceeds the current best's
(`!best || candidate.fitness > best.fitness`). -/
def tournStep (rand : ℕ → ℕ) (sorted : List Creature) (best : Option Creature) (i : ℕ) :
    Option Creature :=
  let cand := sorted[rand i % sorted.length]?
  match best, cand with
  | none, c => c
  | some b, none => some b
  | some b, some c => if b.fitness < c.fitness then some c else some b

/-- `tournamentSelect(sortedPopulation)`: `tournamentSize` uniform draws,
keeping the fittest.  Returns `none` (the JS `null`) when the population is
empty. -/
def tournamentSelect (ts : ℕ) (rand : ℕ → ℕ) (sorted : List Creature) : Option Creature :=
  (List.range ts).foldl (tournStep rand sorted) none

/-- Fitness-descending sort: `.sort((a, b) => b.fitness - a.fitness)`. -/
def sortByFitnessDesc (l : List Creature) : List Creature :=
  l.mergeSort (fun a b => decide (b.fitness ≤ a.fitness))

/-- STEP 1 elite cloning: `createCreature({isPredator, traits})`, then
`elite.brain.setWeights(parent.brain.getWeights())` and `elite.isElite = true`. -/
def mkElite (factory : Factory) (parent : Creature) : Creature :=
  let e := factory parent.isPredator parent.traits
  { e with brain := e.brain.setWeights parent.brain.getWeights, isElite := true }

/-- STEP 2 rescue mutant: traits mutated at doubled rate/strength, weights
mutated adaptively (`mutationRate`/`mutationStrength` times
`adaptiveMutationMultiplier`), written into a fresh factory creature. -/
def mkRescue (cfg : GAConfig) (factory : Factory)
    (trand tnoise : Fin 4 → ℚ) (wrand wnoise : ℕ → ℚ) (parent : Creature) : Creature :=
  let mutantTraits := mutateTraits parent.traits
    (cfg.traitMutationRate * 2) (cfg.traitMutationStrength * 2) trand tnoise
  let m := factory parent.isPredator mutantTraits
  let ws := mutateWeights (cfg.mutationRate * cfg.adaptiveMutationMultiplier)
    (cfg.mutationStrength * cfg.adaptiveMutationMultiplier) wrand wnoise
    parent.brain.getWeights
  { m with brain := m.brain.setWeights ws }

/-- Map a slot-indexed constructor over the rescue templates. -/
def rescueMap (f : ℕ → Creature → Creature) : ℕ → List Creature → List Creature
  | _, [] => []
  | i, c :: cs => f i c :: rescueMap f (i + 1) cs

/-- One STEP 3 tournament offspring (child number `idx`): two independent
tournament parents, per-trait blend crossover then trait mutation, species
inherited from a random parent with a 5% flip, per-weight coin-flip
crossover then Gaussian weight mutation.  `none` when a tournament returns
`null` (empty population). -/
def mkChild (cfg : GAConfig) (o : EvOracle) (factory : Factory)
    (sorted : List Creature) (idx : ℕ) : Option Creature :=
  match tournamentSelect cfg.tournamentSize (o.tournRand (2 * idx)) sorted,
        tournamentSelect cfg.tournamentSize (o.tournRand (2 * idx + 1)) sorted with
  | some p1, some p2 =>
      let childTraits := crossoverTraits p1.traits p2.traits (o.blend idx)
      let mutatedTraits := mutateTraits childTraits
        cfg.traitMutationRate cfg.traitMutationStrength
        (o.traitMutRand idx) (o.traitMutNoise idx)
      let isPredator0 := if o.speciesRand idx < 1/2 then p1.isPredator else p2.isPredator
      let isPredator := if o.flipRand idx < 1/20 then !isPredator0 else isPredator0
      let child := factory isPredator mutatedTraits
      let childWeights := crossoverWeights p1.brain.getWeights p2.brain.getWeights
        (o.weightCoin idx)
      let mutated := mutateWeights cfg.mutationRate cfg.mutationStrength
        (o.weightMutRand idx) (o.weightMutNoise idx) childWeights
      some { child with brain := child.brain.setWeights mutated }
  | _, _ => none

/-- The `while (newGen.length < popSize)` loop: each iteration appends
exactly one child; `count` is the number of missing slots and `idx` the
running child number. -/
def fillChildren (cfg : GAConfig) (o : EvOracle) (factory : Factory)
    (sorted : List Creature) : ℕ → ℕ → Option (List Creature)
  | 0, _ => some []
  | count + 1, idx =>
      match mkChild cfg o factory sorted idx, fillChildren cfg o factory sorted count (idx + 1) with
      | some c, some rest => some (c :: rest)
      | _, _ => none

/-- `population.filter(c => c.isPredator).sort(...)`. -/
def predHalf (population : List Creature) : List Creature :=
  sortByFitnessDesc (population.filter (·.isPredator))

/-- `population.filter(c => !c.isPredator).sort(...)`. -/
def preyHalf (population : List Creature) : List Creature :=
  sortByFitnessDesc (population.filter (fun c => !c.isPredator))

/-- `selectTopNFromSpecies(creatures, n)`:
`creatures.slice(0, Math.min(n, creatures.length))`. -/
def speciesElitesOf (cfg : GAConfig) (species : List Creature) : List Creature :=
  species.take (min cfg.speciesEliteCount species.length)

/-- The full STEP 1 elite list: top predators then top prey, each cloned
through the factory. -/
def evolveElites (cfg : GAConfig) (factory : Factory) (population : List Creature) :
    List Creature :=
  (speciesElitesOf cfg (predHalf population) ++ speciesElitesOf cfg (preyHalf population)).map
    (mkElite factory)

/-- One species' STEP 2 rescue block: when the species' head count in the
new generation (`current`) is below the floor and survivors exist, the loop
`for (i = 0; i < needed && elites.length + i < species.length; i++)` clones
`species[elites.length + i]` with adaptive mutation — i.e. it maps over
`(species.drop elites.length).take needed`. -/
def rescueFor (cfg : GAConfig) (factory : Factory)
    (trand tnoise : ℕ → Fin 4 → ℚ) (wrand wnoise : ℕ → ℕ → ℚ)
    (current : ℕ) (species : List Creature) : List Creature :=
  if current < cfg.minSpeciesCount ∧ 0 < species.length then
    rescueMap
      (fun i p => mkRescue cfg factory (trand i) (tnoise i) (wrand i) (wnoise i) p)
      0 ((species.drop (speciesElitesOf cfg species).length).take (cfg.minSpeciesCount - current))
  else []

/-- `GeneticAlgorithm.evolve(population, createCreature, evolutionLog)`.
Logger calls have no effect on the population and are not modelled.
Returns `none` when a tournament yields `null` (where the JS would throw on
`parent1.traits`). -/
def evolve (cfg : GAConfig) (population : List Creature) (factory : Factory)
    (o : EvOracle) : Option (List Creature) :=
  let popSize := population.length
  let elites := evolveElites cfg factory population
  let currentPredators := (elites.filter (·.isPredator)).length
  let currentPrey := (elites.filter (fun c => !c.isPredator)).length
  let rescuePred := rescueFor cfg factory o.rescuePredTraitRand o.rescuePredTraitNoise
    o.rescuePredWRand o.rescuePredWNoise currentPredators (predHalf population)
  let rescuePrey := rescueFor cfg factory o.rescuePreyTraitRand o.rescuePreyTraitNoise
    o.rescuePreyWRand o.rescuePreyWNoise currentPrey (preyHalf population)
  let newGen1 := elites ++ rescuePred ++ rescuePrey
  let sorted := sortByFitnessDesc population
  (fillChildren cfg o factory sorted (popSize - newGen1.length) 0).map
    (fun children => newGen1 ++ children)

/-! ## World scheduler and ecosystem balancing (src/world/World.js) -/

/-- `this.balancing`: ecosystem balancing parameters. -/
structure Balancing where
  dynamicFoodEnabled : Bool
  foodScalingFactor : ℚ
  overpopulationThreshold : ℚ
  herbivorePenalty : ℚ
  predatorPenalty : ℚ
  predatorThreshold : ℚ

/-- The defaulted balancing options of the `World` constructor. -/
def defaultBalancing : Balancing where
  dynamicFoodEnabled := true
  foodScalingFactor := 8/10
  overpopulationThreshold := 7/10
  herbivorePenalty := 15/100
  predatorPenalty := 10/100
  predatorThreshold := 1/2

/-- The ratio-dependent part of `calculateFoodCount`:
`Math.max(Math.floor(foodCount * 0.6), Math.floor(foodCount *
(1.5 - herbivoreRatio * scalingFactor)))` with
`herbivoreRatio = herbivores / aliveLen`. -/
def foodQuota (foodCount scalingFactor : ℚ) (herbivores aliveLen : ℕ) : ℚ :=
  let herbivoreRatio : ℚ := (herbivores : ℚ) / (aliveLen : ℚ)
  let adjustedCount : ℤ := ⌊foodCount * (3/2 - herbivoreRatio * scalingFactor)⌋
  ((max ⌊foodCount * (6/10)⌋ adjustedCount : ℤ) : ℚ)

/-- `World.calculateFoodCount()`: the base count when dynamic balancing is
off or no creature is alive, the dynamic quota otherwise. -/
def calculateFoodCount (b : Balancing) (foodCount : ℚ) (creatures : List Creature) : ℚ :=
  if !b.dynamicFoodEnabled then foodCount
  else
    let alive := creatures.filter Creature.isAliveB
    if alive.length = 0 then foodCount
    else foodQuota foodCount b.foodScalingFactor
      (alive.filter (fun c => !c.isPredator)).length alive.length

/-- `creatures.filter(c => c.isAlive()).length`. -/
def aliveCount (cs : List Creature) : ℕ := (cs.filter Creature.isAliveB).length

/-- The per-tick creature sweep of `World.update()`: each living creature is
updated (`creatureTick` with its oracle-indexed cost and eaten list), dead
creatures are skipped. -/
def updateCreatures (cost : ℕ → ℚ) (eaten : ℕ → List ℚ) : ℕ → List Creature → List Creature
  | _, [] => []
  | i, c :: cs =>
      (if c.isAliveB then creatureTick c (cost i) (eaten i) else c) ::
        updateCreatures cost eaten (i + 1) cs

/-- `nextGeneration`'s opening loop: survivors bank their remaining energy
as bonus fitness. -/
def finalizeFitness (cs : List Creature) : List Creature :=
  cs.map (fun c => if c.isAliveB then { c with fitness := c.fitness + c.energy } else c)

/-- `World.applyPopulationPenalties()`: when a species' share of the living
population exceeds its threshold, every member of that species has its
fitness multiplied by one minus the species' penalty. -/
def applyPopulationPenalties (b : Balancing) (cs : List Creature) : List Creature :=
  let alive := cs.filter Creature.isAliveB
  if alive.length = 0 then cs
  else
    let predators := (alive.filter (·.isPredator)).length
    let herbivores := (alive.filter (fun c => !c.isPredator)).length
    let predatorRatio : ℚ := (predators : ℚ) / (alive.length : ℚ)
    let herbivoreRatio : ℚ := (herbivores : ℚ) / (alive.length : ℚ)
    cs.map (fun c =>
      if !c.isPredator && decide (b.overpopulationThreshold < herbivoreRatio) then
        { c with fitness := c.fitness * (1 - b.herbivorePenalty) }
      else if c.isPredator && decide (b.predatorThreshold < predatorRatio) then
        { c with fitness := c.fitness * (1 - b.predatorPenalty) }
      else c)

/-- World state relevant to the tick scheduler. -/
structure WorldSt where
  tick : ℕ
  generationLength : ℕ
  creatures : List Creature
  balancing : Balancing
  ga : GAConfig

/-- One iteration of the speed loop of `World.update()`: advance the tick,
update every living creature, then check the generation-end condition
`tick >= generationLength || alive == 0`.  On generation end,
`nextGeneration` banks survivor energy, applies population penalties, evolves
the population and resets the tick counter (the `evolve` fallback is
unreachable: `evolve` succeeds on every population, see `evolve_length`).
Food decay/respawn and the render statistics never touch creature energy or
fitness and are not modelled.  The returned flag records whether the
generation ended. -/
def worldTick (w : WorldSt) (cost : ℕ → ℚ) (eaten : ℕ → List ℚ)
    (eo : EvOracle) (f : Factory) : WorldSt × Bool :=
  let newTick := w.tick + 1
  let cs := updateCreatures cost eaten 0 w.creatures
  if w.generationLength ≤ newTick ∨ aliveCount cs = 0 then
    let cs1 := finalizeFitness cs
    let cs2 := applyPopulationPenalties w.balancing cs1
    let cs3 := (evolve w.ga cs2 f eo).getD cs2
    ({ w with tick := 0, creatures := cs3 }, true)
  else ({ w with tick := newTick, creatures := cs }, false)

/-- Environment draws for a multi-tick run: per tick, the per-creature act
and movement energy cost, the per-creature eaten food energies, and the
randomness and factory a generation transition would consume. -/
structure SimOracle where
  cost : ℕ → ℕ → ℚ
  eaten : ℕ → ℕ → List ℚ
  evo : ℕ → EvOracle
  factory : ℕ → Factory

/-- `n` consecutive ticks from `w`; the flag is the last tick's
generation-end flag. -/
def run (w : WorldSt) (o : SimOracle) : ℕ → WorldSt × Bool
  | 0 => (w, false)
  | n + 1 => worldTick (run w o n).1 (o.cost n) (o.eaten n) (o.evo n) (o.factory n)

/-- The creature list produced inside tick `n + 1` before the
generation-end check. -/
def tickedCreatures (w : WorldSt) (o : SimOracle) (n : ℕ) : List Creature :=
  updateCreatures (o.cost n) (o.eaten n) 0 ((run w o n).1.creatures)

/-! ## Concrete instances used in witnesses and counterexamples -/

/-- A one-layer network: one input, one output neuron (weight 1, bias 2);
its flattened weight vector is `[1, 2]`. -/
def net0 : NeuralNet := ⟨[⟨[[some 1]], [some 2]⟩]⟩

/-- A trait vector with every value inside its declared range. -/
def midTraits : Traits := ⟨1, 1, 3/10, 1⟩

/-- A trait vector whose size is far outside its declared range. -/
def badTraits : Traits := ⟨99, 1, 3/10, 1⟩

/-- A predator in attack position. -/
def predC : Creature where
  x := 0
  y := 0
  isPredator := true
  traits := ⟨1, 1, 1, 1⟩
  radius := 12
  energy := 50
  maxEnergy := 100
  fitness := 10
  foodEaten := 0
  kills := 0
  attackPower := 30
  attackCooldown := 0
  attackCooldownMax := 60
  isElite := false
  brain := ⟨[]⟩

/-- A prey creature within the predator's attack range whose energy is
below the predator's attack power. -/
def preyC : Creature where
  x := 3
  y := 4
  isPredator := false
  traits := ⟨1, 1, 0, 1⟩
  radius := 12
  energy := 20
  maxEnergy := 100
  fitness := 8
  foodEaten := 0
  kills := 0
  attackPower := 0
  attackCooldown := 0
  attackCooldownMax := 60
  isElite := false
  brain := ⟨[]⟩

/-- A constant factory: one creature per call, built by the `Creature`
constructor from the requested options. -/
def factoryW : Factory := fun isPredator t => mkCreature 0 0 isPredator t ⟨[]⟩

/-- A fixed random tape for `evolve`. -/
def evOracleW : EvOracle where
  tournRand := fun _ _ => 0
  blend := fun _ _ => 1/2
  traitMutRand := fun _ _ => 1/2
  traitMutNoise := fun _ _ => 0
  weightCoin := fun _ _ => true
  weightMutRand := fun _ _ => 1/2
  weightMutNoise := fun _ _ => 0
  speciesRand := fun _ => 1/4
  flipRand := fun _ => 1/2
  rescuePredTraitRand := fun _ _ => 1/2
  rescuePredTraitNoise := fun _ _ => 0
  rescuePredWRand := fun _ _ => 1/2
  rescuePredWNoise := fun _ _ => 0
  rescuePreyTraitRand := fun _ _ => 1/2
  rescuePreyTraitNoise := fun _ _ => 0
  rescuePreyWRand := fun _ _ => 1/2
  rescuePreyWNoise := fun _ _ => 0

/-- The `GeneticAlgorithm` configuration built by the `World` constructor
(explicit options plus the constructor's species-protection defaults). -/
def cfgW : GAConfig where
  mutationRate := 1/10
  mutationStrength := 3/10
  tournamentSize := 5
  traitMutationRate := 15/100
  traitMutationStrength := 2/10
  minSpeciesCount := 5
  speciesEliteCount := 2
  adaptiveMutationMultiplier := 3

/-- A single healthy prey creature for the prey-only scenario. -/
def cW : Creature where
  x := 0
  y := 0
  isPredator := false
  traits := midTraits
  radius := 12
  energy := 1
  maxEnergy := 1
  fitness := 0
  foodEaten := 0
  kills := 0
  attackPower := 0
  attackCooldown := 0
  attackCooldownMax := 60
  isElite := false
  brain := ⟨[]⟩

/-- A fresh prey-only world with the default generation length. -/
def wW : WorldSt where
  tick := 0
  generationLength := 1000
  creatures := [cW]
  balancing := defaultBalancing
  ga := cfgW

/-- A run environment with zero act-phase cost and no food eaten. -/
def oW : SimOracle where
  cost := fun _ _ => 0
  eaten := fun _ _ => []
  evo := fun _ => evOracleW
  factory := fun _ => factoryW

/-! ## Lemmas: weight serialization -/

theorem fillRow_self (tmpl rest : List Entry) :
    fillRow tmpl (tmpl ++ rest) = (tmpl, rest) := by
  induction tmpl with
  | nil => rfl
  | cons a t ih => simp [fillRow, ih]

theorem fillRows_self (rows : List (List Entry)) (rest : List Entry) :
    fillRows rows (rows.flatten ++ rest) = (rows, rest) := by
  induction rows with
  | nil => rfl
  | cons r rs ih =>
      simp only [fillRows, List.flatten_cons, List.append_assoc, fillRow_self, ih]

theorem fillLayer_self (L : Layer) (rest : List Entry) :
    fillLayer L (layerFlat L ++ rest) = (L, rest) := by
  simp only [fillLayer, layerFlat, List.append_assoc, fillRows_self, fillRow_self]

theorem fillLayers_self (ls : List Layer) (rest : List Entry) :
    fillLayers ls ((ls.map layerFlat).flatten ++ rest) = (ls, rest) := by
  induction ls with
  | nil => rfl
  | cons L ls ih =>
      simp only [fillLayers, List.map_cons, List.flatten_cons, List.append_assoc,
        fillLayer_self, ih]

/-- C4: `setWeights(getWeights())` is an identity transform: every layer
weight and bias is restored exactly (the model computes over exact
rationals, hence within any floating tolerance). -/
theorem setWeights_getWeights_id (n : NeuralNet) :
    n.setWeights n.getWeights = n := by
  have h := fillLayers_self n.layers []
  rw [List.append_nil] at h
  simp only [NeuralNet.setWeights, NeuralNet.getWeights, h]

theorem fillRow_pad (tmpl ws : List Entry) :
    fillRow tmpl ws =
      (ws.take tmpl.length ++ List.replicate (tmpl.length - ws.length) none,
        ws.drop tmpl.length) := by
  induction tmpl generalizing ws with
  | nil => simp [fillRow]
  | cons a t ih =>
      cases ws with
      | nil => simp [fillRow, ih, List.replicate_succ]
      | cons w ws => simp [fillRow, ih]

theorem pad_merge (ws : List Entry) (a b : ℕ) :
    (ws.take a ++ List.replicate (a - ws.length) none) ++
      ((ws.drop a).take b ++ List.replicate (b - (ws.drop a).length) none) =
    ws.take (a + b) ++ List.replicate ((a + b) - ws.length) none := by
  rcases le_or_lt ws.length a with h | h
  · have h1 : ws.take a = ws := List.take_of_length_le h
    have h2 : ws.take (a + b) = ws := List.take_of_length_le (by omega)
    have h3 : ws.drop a = [] := List.drop_eq_nil_of_le h
    rw [h1, h2, h3]
    simp only [List.take_nil, List.length_nil, Nat.sub_zero, List.nil_append,
      List.append_assoc]
    rw [← List.replicate_add]
    congr 2
    omega
  · have h1 : (a + b) - ws.length = b - (ws.length - a) := by omega
    have h2 : a - ws.length = 0 := by omega
    rw [h2, h1, List.take_add, List.length_drop]
    simp [List.append_assoc]

theorem fillRows_pad (rows : List (List Entry)) (ws : List Entry) :
    (fillRows rows ws).1.flatten =
      ws.take rows.flatten.length ++
        List.replicate (rows.flatten.length - ws.length) none ∧
    (fillRows rows ws).2 = ws.drop rows.flatten.length := by
  induction rows generalizing ws with
  | nil => simp [fillRows]
  | cons r rs ih =>
      have hrec := ih (ws.drop r.length)
      have h1 : fillRows (r :: rs) ws = ((fillRow r ws).1 :: (fillRows rs (fillRow r ws).2).1,
          (fillRows rs (fillRow r ws).2).2) := rfl
      rw [h1, fillRow_pad r ws]
      simp only [List.flatten_cons, hrec.1, hrec.2, List.drop_drop,
        List.length_append]
      exact ⟨pad_merge ws r.length rs.flatten.length, trivial⟩

theorem fillLayer_pad (L : Layer) (ws : List Entry) :
    layerFlat (fillLayer L ws).1 =
      ws.take (layerFlat L).length ++
        List.replicate ((layerFlat L).length - ws.length) none ∧
    (fillLayer L ws).2 = ws.drop (layerFlat L).length := by
  have hw := fillRows_pad L.weights ws
  have h1 : fillLayer L ws = (⟨(fillRows L.weights ws).1, (fillRow L.biases (fillRows L.weights ws).2).1⟩,
      (fillRow L.biases (fillRows L.weights ws).2).2) := rfl
  rw [h1, hw.2, fillRow_pad L.biases (ws.drop L.weights.flatten.length)]
  simp only [layerFlat, hw.1, List.drop_drop, List.length_append]
  exact ⟨pad_merge ws L.weights.flatten.length L.biases.length, trivial⟩

theorem fillLayers_pad (ls : List Layer) (ws : List Entry) :
    ((fillLayers ls ws).1.map layerFlat).flatten =
      ws.take ((ls.map layerFlat).flatten).length ++
        List.replicate (((ls.map layerFlat).flatten).length - ws.length) none := by
  induction ls generalizing ws with
  | nil => simp [fillLayers]
  | cons L ls ih =>
      have hL := fillLayer_pad L ws
      have hrec := ih (ws.drop (layerFlat L).length)
      have h1 : fillLayers (L :: ls) ws = ((fillLayer L ws).1 :: (fillLayers ls (fillLayer L ws).2).1,
          (fillLayers ls (fillLayer L ws).2).2) := rfl
      rw [h1]
      simp only [List.map_cons, List.flatten_cons, hL.1, hL.2, hrec,
        List.length_append]
      exact pad_merge ws (layerFlat L).length ((ls.map layerFlat).flatten).length

/-- C3 (amended): `setWeights` performs no length validation and never
fails: for every network and every weight vector, the supplied entries are
written positionally — a longer vector is silently truncated to the
architecture-determined count, and a shorter one leaves the remaining slots
`undefined`. -/
theorem setWeights_no_validation (n : NeuralNet) (ws : List Entry) :
    (n.setWeights ws).getWeights =
      ws.take n.weightCount ++ List.replicate (n.weightCount - ws.length) none := by
  simpa only [NeuralNet.setWeights, NeuralNet.getWeights, NeuralNet.weightCount]
    using fillLayers_pad n.layers ws

/-- C3 counterexample: importing a vector of the wrong length (1 instead of
the architecture-determined 2) is not rejected with a ShapeMismatch error —
`setWeights` returns a network, silently padding the missing bias slot with
`undefined`. -/
theorem setWeights_wrong_length_accepted :
    ([some 5] : List Entry).length ≠ net0.weightCount ∧
      net0.setWeights [some 5] = ⟨[⟨[[some 5]], [none]⟩]⟩ := by
  constructor
  · decide
  · rfl

/-! ## Lemmas and theorems: trait system -/

theorem clamp_mem (v lo hi : ℚ) (h : lo ≤ hi) : lo ≤ clamp v lo hi ∧ clamp v lo hi ≤ hi :=
  ⟨le_max_left lo _, max_le h (min_le_left hi v)⟩

/-- C7 counterexample: for an input trait vector outside the declared
ranges, a random outcome that mutates no trait returns the vector unchanged,
so `mutateTraits` yields a value outside its trait's declared range. -/
theorem mutateTraits_escapes_range :
    ¬ traitsInRange (mutateTraits badTraits 0 (2/10) (fun _ => 1) (fun _ => 0)) := by
  norm_num [traitsInRange, mutateTraits, badTraits]

/-- C7 (amended): for every input trait vector whose values lie within
their declared ranges, every mutation rate and strength, and every random
outcome, each trait value of the result of `mutateTraits` lies within that
trait's declared range (mutated traits are clamped; unmutated traits keep
their in-range input value). -/
theorem mutateTraits_in_range (t : Traits) (rate strength : ℚ)
    (rand noise : Fin 4 → ℚ) (ht : traitsInRange t) :
    traitsInRange (mutateTraits t rate strength rand noise) := by
  obtain ⟨h1, h2, h3, h4, h5, h6, h7, h8⟩ := ht
  unfold mutateTraits traitsInRange
  refine ⟨?_, ?_, ?_, ?_, ?_, ?_, ?_, ?_⟩ <;> dsimp only <;> split
  · exact (clamp_mem _ _ _ (by norm_num)).1
  · exact h1
  · exact (clamp_mem _ _ _ (by norm_num)).2
  · exact h2
  · exact (clamp_mem _ _ _ (by norm_num)).1
  · exact h3
  · exact (clamp_mem _ _ _ (by norm_num)).2
  · exact h4
  · exact (clamp_mem _ _ _ (by norm_num)).1
  · exact h5
  · exact (clamp_mem _ _ _ (by norm_num)).2
  · exact h6
  · exact (clamp_mem _ _ _ (by norm_num)).1
  · exact h7
  · exact (clamp_mem _ _ _ (by norm_num)).2
  · exact h8

theorem mutateTraits_in_range_witness :
    traitsInRange midTraits ∧
      traitsInRange (mutateTraits midTraits (15/100) (2/10) (fun _ => 1/2) (fun _ => 1)) :=
  ⟨by norm_num [traitsInRange, midTraits],
    mutateTraits_in_range midTraits (15/100) (2/10) (fun _ => 1/2) (fun _ => 1)
      (by norm_num [traitsInRange, midTraits])⟩

/-- C9: `calculateTraitEffects` is a pure function of the traits returning
exactly the spec's formulas: maxEnergy = 100 + (size−1)·80,
maxSpeed = 4·(1.2 − size·0.3)·metabolism, baseEnergyCost =
0.05·metabolism·size, moveEnergyCost = 0.02·metabolism, sensorRange =
150·vision, bodyRadius = 12·size, attackPower = 30·aggression·size, and
attackCooldownTicks = 60/metabolism. -/
theorem calculateTraitEffects_spec (t : Traits) :
    (calculateTraitEffects t).maxEnergy = 100 + (t.size - 1) * 80 ∧
    (calculateTraitEffects t).maxSpeed = 4 * (12/10 - t.size * (3/10)) * t.metabolism ∧
    (calculateTraitEffects t).energyCostBase = (5/100) * t.metabolism * t.size ∧
    (calculateTraitEffects t).energyCostMove = (2/100) * t.metabolism ∧
    (calculateTraitEffects t).sensorLength = 150 * t.vision ∧
    (calculateTraitEffects t).radius = 12 * t.size ∧
    (calculateTraitEffects t).attackPower = 30 * t.aggression * t.size ∧
    (calculateTraitEffects t).attackCooldown = 60 / t.metabolism := by
  refine ⟨rfl, ?_, rfl, rfl, rfl, rfl, rfl, rfl⟩
  norm_num [calculateTraitEffects]

/-! ## Lemmas and theorems: combat -/

/-- C2 evaluation at the failing input: a predator kill spawns its meat via
`spawnMeat(prey.x, prey.y)` with the `fromHunt` flag left at its default
`false`, so the meat carries the starvation lifetime of 300 ticks, not the
hunted lifetime of 800 ticks claimed by the spec (and by Food.js's own
comments). -/
theorem hunted_meat_gets_starvation_lifetime :
    (tryAttack predC preyC 0).2.2 = some (spawnMeat 3 4 0 false false) ∧
      (spawnMeat 3 4 0 false false).lifetime = some 300 ∧
      (spawnMeat 3 4 0 false false).lifetime ≠ some 800 := by
  refine ⟨?_, rfl, by decide⟩
  unfold tryAttack
  norm_num [predC, preyC]

/-- C5: whenever an attack drives the target prey's energy to 0 or below,
the attacker's fitness increases by exactly `150 + 0.5·(prey fitness at
death) + 20·(kill count before increment)`, the kill count increments by
exactly 1, and the attacker's energy becomes 80% of the victim's maxEnergy
added to its own, capped at its maxEnergy. -/
theorem tryAttack_kill_rewards (self prey : Creature) (r : ℚ)
    (hprey : prey.isPredator = false)
    (hrange : (prey.x - self.x) ^ 2 + (prey.y - self.y) ^ 2 <
      (self.radius + prey.radius + 15) ^ 2)
    (hkill : prey.energy - self.attackPower ≤ 0) :
    (tryAttack self prey r).1.fitness =
        self.fitness + 150 + prey.fitness * (1/2) + (self.kills : ℚ) * 20 ∧
      (tryAttack self prey r).1.kills = self.kills + 1 ∧
      (tryAttack self prey r).1.energy =
        min self.maxEnergy (self.energy + prey.maxEnergy * (8/10)) := by
  unfold tryAttack
  rw [hprey]
  simp only [Bool.false_eq_true, if_false, if_pos hrange, if_pos hkill]
  refine ⟨?_, ?_, ?_⟩ <;> first | rfl | trivial

theorem tryAttack_kill_rewards_witness :
    preyC.isPredator = false ∧
      (preyC.x - predC.x) ^ 2 + (preyC.y - predC.y) ^ 2 <
        (predC.radius + preyC.radius + 15) ^ 2 ∧
      preyC.energy - predC.attackPower ≤ 0 ∧
      ((tryAttack predC preyC 0).1.fitness =
          predC.fitness + 150 + preyC.fitness * (1/2) + (predC.kills : ℚ) * 20 ∧
        (tryAttack predC preyC 0).1.kills = predC.kills + 1 ∧
        (tryAttack predC preyC 0).1.energy =
          min predC.maxEnergy (predC.energy + preyC.maxEnergy * (8/10))) :=
  ⟨rfl, by norm_num [predC, preyC], by norm_num [predC, preyC],
    tryAttack_kill_rewards predC preyC 0 rfl (by norm_num [predC, preyC])
      (by norm_num [predC, preyC])⟩

/-! ## Lemmas and theorems: energy cap invariant -/

theorem foldl_eatStep_maxEnergy (l : List ℚ) (c : Creature) :
    (l.foldl eatStep c).maxEnergy = c.maxEnergy := by
  induction l generalizing c with
  | nil => rfl
  | cons e t ih => simpa [eatStep] using ih (eatStep c e)

theorem foldl_eatStep_energy_le (l : List ℚ) (c : Creature)
    (h : c.energy ≤ c.maxEnergy) :
    (l.foldl eatStep c).energy ≤ c.maxEnergy := by
  induction l generalizing c with
  | nil => exact h
  | cons e t ih =>
      have h1 : (eatStep c e).energy ≤ (eatStep c e).maxEnergy := min_le_left _ _
      simpa [eatStep] using ih (eatStep c e) h1

theorem foldl_eatStep_fitness (l : List ℚ) (c : Creature) :
    (l.foldl eatStep c).fitness = c.fitness + l.sum := by
  induction l generalizing c with
  | nil => simp
  | cons e t ih =>
      rw [List.foldl_cons, ih (eatStep c e), List.sum_cons]
      simp only [eatStep]
      ring

theorem creatureTick_maxEnergy (c : Creature) (cost : ℚ) (eaten : List ℚ) :
    (creatureTick c cost eaten).maxEnergy = c.maxEnergy := by
  simp [creatureTick, foldl_eatStep_maxEnergy]

theorem creatureTick_energy_le (c : Creature) (cost : ℚ) (eaten : List ℚ)
    (hc : c.energy ≤ c.maxEnergy) (hcost : 0 ≤ cost) :
    (creatureTick c cost eaten).energy ≤ (creatureTick c cost eaten).maxEnergy := by
  rw [creatureTick_maxEnergy]
  simp only [creatureTick]
  exact foldl_eatStep_energy_le eaten _ (by dsimp only; linarith)

theorem tryAttack_energy_le (self prey : Creature) (r : ℚ)
    (hself : self.energy ≤ self.maxEnergy) (hprey : prey.energy ≤ prey.maxEnergy)
    (hap : 0 ≤ self.attackPower) :
    (tryAttack self prey r).1.energy ≤ (tryAttack self prey r).1.maxEnergy ∧
      (tryAttack self prey r).2.1.energy ≤ (tryAttack self prey r).2.1.maxEnergy := by
  unfold tryAttack
  dsimp only
  split
  · exact ⟨hself, hprey⟩
  · split
    · split
      · exact ⟨min_le_left _ _, by dsimp only; linarith⟩
      · exact ⟨hself, by dsimp only; linarith⟩
    · exact ⟨hself, hprey⟩

/-- C10: energy never exceeds maxEnergy.  A creature is created with energy
equal to 0.8·maxEnergy (below the cap), one update tick preserves the cap
(food gains are clamped by `min(maxEnergy, ...)` and the act/physics phase
only subtracts), and an attack preserves the cap for both parties (the kill
energy gain is clamped by `min(maxEnergy, ...)`, the victim only loses
energy). -/
theorem energy_le_maxEnergy_invariant
    (x y : ℚ) (ip : Bool) (t : Traits) (br : NeuralNet)
    (c self prey : Creature) (cost r : ℚ) (eaten : List ℚ)
    (ht : traitsInRange t)
    (hc : c.energy ≤ c.maxEnergy)
    (hcost : 0 ≤ cost)
    (hself : self.energy ≤ self.maxEnergy)
    (hprey : prey.energy ≤ prey.maxEnergy)
    (hap : 0 ≤ self.attackPower) :
    ((mkCreature x y ip t br).energy = (mkCreature x y ip t br).maxEnergy * (8/10) ∧
      (mkCreature x y ip t br).energy ≤ (mkCreature x y ip t br).maxEnergy) ∧
    (creatureTick c cost eaten).energy ≤ (creatureTick c cost eaten).maxEnergy ∧
    (tryAttack self prey r).1.energy ≤ (tryAttack self prey r).1.maxEnergy ∧
    (tryAttack self prey r).2.1.energy ≤ (tryAttack self prey r).2.1.maxEnergy := by
  obtain ⟨hsz, -⟩ := ht
  have hatk := tryAttack_energy_le self prey r hself hprey hap
  refine ⟨⟨rfl, ?_⟩, creatureTick_energy_le c cost eaten hc hcost, hatk.1, hatk.2⟩
  show (calculateTraitEffects t).maxEnergy * (8/10) ≤ (calculateTraitEffects t).maxEnergy
  simp only [calculateTraitEffects]
  nlinarith

theorem energy_le_maxEnergy_invariant_witness :
    traitsInRange midTraits ∧
      cW.energy ≤ cW.maxEnergy ∧ (0:ℚ) ≤ 1 ∧
      predC.energy ≤ predC.maxEnergy ∧ preyC.energy ≤ preyC.maxEnergy ∧
      (0:ℚ) ≤ predC.attackPower ∧
      (((mkCreature 0 0 false midTraits ⟨[]⟩).energy =
          (mkCreature 0 0 false midTraits ⟨[]⟩).maxEnergy * (8/10) ∧
        (mkCreature 0 0 false midTraits ⟨[]⟩).energy ≤
          (mkCreature 0 0 false midTraits ⟨[]⟩).maxEnergy) ∧
      (creatureTick cW 1 [5]).energy ≤ (creatureTick cW 1 [5]).maxEnergy ∧
      (tryAttack predC preyC 0).1.energy ≤ (tryAttack predC preyC 0).1.maxEnergy ∧
      (tryAttack predC preyC 0).2.1.energy ≤ (tryAttack predC preyC 0).2.1.maxEnergy) :=
  ⟨by norm_num [traitsInRange, midTraits], by norm_num [cW], by norm_num,
    by norm_num [predC], by norm_num [preyC], by norm_num [predC],
    energy_le_maxEnergy_invariant 0 0 false midTraits ⟨[]⟩ cW predC preyC 1 0 [5]
      (by norm_num [traitsInRange, midTraits]) (by norm_num [cW]) (by norm_num)
      (by norm_num [predC]) (by norm_num [preyC]) (by norm_num [predC])⟩

/-! ## Lemmas and theorems: dynamic plant quota -/

/-- C6 counterexample: with a base food count of 61 and a single living
predator (herbivore ratio 0), the computed quota is 91, while the claimed
formula `baseFoodCount · clamp(1.5 − herbivoreRatio · scalingFactor, 0.6,
1.5)` gives 91.5 — the code floors, so the quota does not equal the claimed
product (and for fractional 60%-marks it can fall below 60% of the base). -/
theorem calculateFoodCount_ne_claimed_formula :
    calculateFoodCount defaultBalancing 61 [predC] = 91 ∧
      (91 : ℚ) ≠
        61 * clamp (3/2 - ((0:ℚ)/(1:ℚ)) * defaultBalancing.foodScalingFactor) (3/5) (3/2) := by
  constructor
  · show calculateFoodCount defaultBalancing 61 [predC] = 91
    have halive : Creature.isAliveB predC = true := by
      simp [Creature.isAliveB, predC]
    have hpred : predC.isPredator = true := rfl
    simp only [calculateFoodCount, defaultBalancing, Bool.not_true, Bool.false_eq_true,
      if_false, List.filter, halive, hpred, foodQuota]
    norm_num [Int.floor_eq_iff]
  · norm_num [clamp, defaultBalancing]

/-- C6 (amended): the dynamic plant quota equals
`⌊baseFoodCount · clamp(1.5 − herbivoreRatio·scalingFactor, 0.6, 1.5)⌋`
(the code floors both candidates before taking their max); it is
monotonically non-increasing in the herbivore count, and it never falls
below `⌊0.6 · baseFoodCount⌋`. -/
theorem foodQuota_amended (fc s : ℚ) (herb total : ℕ)
    (hfc : 0 ≤ fc) (hs : 0 ≤ s) (htot : 0 < total) (_hherb : herb ≤ total) :
    foodQuota fc s herb total =
      ((⌊fc * clamp (3/2 - ((herb : ℚ) / (total : ℚ)) * s) (3/5) (3/2)⌋ : ℤ) : ℚ) ∧
    (∀ herb2 : ℕ, herb ≤ herb2 → herb2 ≤ total →
      foodQuota fc s herb2 total ≤ foodQuota fc s herb total) ∧
    ((⌊fc * (6/10)⌋ : ℤ) : ℚ) ≤ foodQuota fc s herb total := by
  have htotQ : (0 : ℚ) < (total : ℚ) := by exact_mod_cast htot
  refine ⟨?_, ?_, ?_⟩
  · -- the quota equals the floored clamp form
    set r : ℚ := (herb : ℚ) / (total : ℚ) with hr
    have hr0 : 0 ≤ r := by positivity
    have hx : 3/2 - r * s ≤ 3/2 := by nlinarith
    simp only [foodQuota, clamp]
    rcases le_or_lt (3/5 : ℚ) (3/2 - r * s) with h | h
    · rw [min_eq_right hx, max_eq_right h]
      have : (⌊fc * (6/10)⌋ : ℤ) ≤ ⌊fc * (3/2 - r * s)⌋ := by
        apply Int.floor_le_floor
        nlinarith
      rw [max_eq_right this]
    · rw [min_eq_right hx, max_eq_left h.le]
      have : (⌊fc * (3/2 - r * s)⌋ : ℤ) ≤ ⌊fc * (6/10)⌋ := by
        apply Int.floor_le_floor
        nlinarith
      rw [max_eq_left this]
      norm_num
  · -- monotone non-increasing in the herbivore count
    intro herb2 h12 h2t
    have hle : ((herb : ℚ) / (total : ℚ)) ≤ ((herb2 : ℚ) / (total : ℚ)) := by
      rw [div_le_div_iff_of_pos_right htotQ]
      exact_mod_cast h12
    simp only [foodQuota]
    have hfl : (⌊fc * (3/2 - ((herb2 : ℚ) / (total : ℚ)) * s)⌋ : ℤ) ≤
        ⌊fc * (3/2 - ((herb : ℚ) / (total : ℚ)) * s)⌋ := by
      apply Int.floor_le_floor
      nlinarith [mul_nonneg (mul_nonneg hfc (sub_nonneg.mpr hle)) hs]
    exact_mod_cast max_le_max le_rfl hfl
  · -- never below the floored 60% mark
    simp only [foodQuota]
    exact_mod_cast le_max_left _ _

theorem foodQuota_amended_witness :
    (0:ℚ) ≤ 60 ∧ (0:ℚ) ≤ 4/5 ∧ 0 < 1 ∧ 0 ≤ 1 ∧
      (foodQuota 60 (4/5) 0 1 =
          ((⌊(60:ℚ) * clamp (3/2 - ((0 : ℚ) / (1 : ℚ)) * (4/5)) (3/5) (3/2)⌋ : ℤ) : ℚ) ∧
        (∀ herb2 : ℕ, 0 ≤ herb2 → herb2 ≤ 1 →
          foodQuota 60 (4/5) herb2 1 ≤ foodQuota 60 (4/5) 0 1) ∧
        ((⌊(60:ℚ) * (6/10)⌋ : ℤ) : ℚ) ≤ foodQuota 60 (4/5) 0 1) :=
  ⟨by norm_num, by norm_num, by norm_num, by norm_num,
    foodQuota_amended 60 (4/5) 0 1 (by norm_num) (by norm_num) (by norm_num) (by norm_num)⟩

/-! ## Lemmas and theorems: genetic-algorithm population size -/

theorem length_sortByFitnessDesc (l : List Creature) :
    (sortByFitnessDesc l).length = l.length :=
  List.length_mergeSort ..

theorem length_filter_partition (p : Creature → Bool) (l : List Creature) :
    (l.filter p).length + (l.filter (fun c => !p c)).length = l.length := by
  induction l with
  | nil => rfl
  | cons a t ih => by_cases h : p a <;> simp [List.filter, h] <;> omega

theorem length_rescueMap (f : ℕ → Creature → Creature) :
    ∀ (i : ℕ) (l : List Creature), (rescueMap f i l).length = l.length := by
  intro i l
  induction l generalizing i with
  | nil => rfl
  | cons c cs ih => simp [rescueMap, ih]

theorem length_speciesElitesOf (cfg : GAConfig) (s : List Creature) :
    (speciesElitesOf cfg s).length = min cfg.speciesEliteCount s.length := by
  simp only [speciesElitesOf, List.length_take]
  omega

theorem length_rescueFor (cfg : GAConfig) (factory : Factory)
    (trand tnoise : ℕ → Fin 4 → ℚ) (wrand wnoise : ℕ → ℕ → ℚ)
    (current : ℕ) (species : List Creature) :
    (rescueFor cfg factory trand tnoise wrand wnoise current species).length ≤
      species.length - (speciesElitesOf cfg species).length := by
  unfold rescueFor
  split
  · rw [length_rescueMap]
    simp only [List.length_take, List.length_drop]
    omega
  · simp

theorem tournStep_some_of_some (rand : ℕ → ℕ) (sorted : List Creature)
    (b : Option Creature) (i : ℕ) (h : b.isSome) :
    (tournStep rand sorted b i).isSome := by
  unfold tournStep
  cases b with
  | none => simp at h
  | some v =>
      cases hc : sorted[rand i % sorted.length]? with
      | none => simp
      | some c => dsimp only; split <;> simp

theorem foldl_tournStep_some (rand : ℕ → ℕ) (sorted : List Creature) :
    ∀ (l : List ℕ) (b : Option Creature), b.isSome →
      (l.foldl (tournStep rand sorted) b).isSome := by
  intro l
  induction l with
  | nil => intro b h; exact h
  | cons i t ih =>
      intro b h
      exact ih (tournStep rand sorted b i) (tournStep_some_of_some rand sorted b i h)

theorem tournamentSelect_isSome (ts : ℕ) (rand : ℕ → ℕ) (sorted : List Creature)
    (hts : 0 < ts) (hne : sorted ≠ []) :
    (tournamentSelect ts rand sorted).isSome := by
  unfold tournamentSelect
  cases hr : List.range ts with
  | nil =>
      exfalso
      have := List.range_eq_nil.mp hr
      omega
  | cons i t =>
      rw [List.foldl_cons]
      apply foldl_tournStep_some
      have hlen : rand i % sorted.length < sorted.length :=
        Nat.mod_lt _ (List.length_pos.mpr hne)
      unfold tournStep
      rw [List.getElem?_eq_getElem hlen]
      rfl

theorem mkChild_isSome (cfg : GAConfig) (o : EvOracle) (factory : Factory)
    (sorted : List Creature) (idx : ℕ)
    (hts : 0 < cfg.tournamentSize) (hne : sorted ≠ []) :
    (mkChild cfg o factory sorted idx).isSome := by
  obtain ⟨p1, hp1⟩ := Option.isSome_iff_exists.mp
    (tournamentSelect_isSome cfg.tournamentSize (o.tournRand (2 * idx)) sorted hts hne)
  obtain ⟨p2, hp2⟩ := Option.isSome_iff_exists.mp
    (tournamentSelect_isSome cfg.tournamentSize (o.tournRand (2 * idx + 1)) sorted hts hne)
  unfold mkChild
  rw [hp1, hp2]
  rfl

theorem fillChildren_some (cfg : GAConfig) (o : EvOracle) (factory : Factory)
    (sorted : List Creature) (hts : 0 < cfg.tournamentSize) (hne : sorted ≠ []) :
    ∀ (count idx : ℕ), ∃ l, fillChildren cfg o factory sorted count idx = some l ∧
      l.length = count := by
  intro count
  induction count with
  | zero => exact fun idx => ⟨[], rfl, rfl⟩
  | succ k ih =>
      intro idx
      obtain ⟨c, hc⟩ := Option.isSome_iff_exists.mp
        (mkChild_isSome cfg o factory sorted idx hts hne)
      obtain ⟨rest, hrest, hlen⟩ := ih (idx + 1)
      exact ⟨c :: rest, by simp [fillChildren, hc, hrest], by simp [hlen]⟩

theorem fill_and_append (cfg : GAConfig) (o : EvOracle) (factory : Factory)
    (newGen1 sorted : List Creature) (popSize : ℕ)
    (hle : newGen1.length ≤ popSize) (hts : 0 < cfg.tournamentSize)
    (hsorted : 0 < popSize → sorted ≠ []) :
    ∃ out, ((fillChildren cfg o factory sorted (popSize - newGen1.length) 0).map
        (fun children => newGen1 ++ children)) = some out ∧ out.length = popSize := by
  rcases Nat.eq_zero_or_pos (popSize - newGen1.length) with h0 | hpos
  · refine ⟨newGen1, ?_, by omega⟩
    rw [h0]
    simp [fillChildren]
  · have hp : 0 < popSize := by omega
    obtain ⟨l, hl, hlen⟩ := fillChildren_some cfg o factory sorted hts (hsorted hp)
      (popSize - newGen1.length) 0
    refine ⟨newGen1 ++ l, by rw [hl]; rfl, ?_⟩
    rw [List.length_append, hlen]
    omega

/-- C1: `evolve` succeeds on every population (for a positive tournament
size, which the `GeneticAlgorithm` constructor's `|| 5` default guarantees)
and the returned next generation has exactly the same number of members as
the input population, regardless of species composition, of the factory's
creatures, and of every random outcome of elitism, species-floor rescue and
tournament reproduction. -/
theorem evolve_length (cfg : GAConfig) (pop : List Creature) (factory : Factory)
    (o : EvOracle) (hts : 0 < cfg.tournamentSize) :
    ∃ out, evolve cfg pop factory o = some out ∧ out.length = pop.length := by
  have hpart := length_filter_partition (·.isPredator) pop
  have hP : (predHalf pop).length = (pop.filter (·.isPredator)).length :=
    length_sortByFitnessDesc _
  have hY : (preyHalf pop).length = (pop.filter (fun c => !c.isPredator)).length :=
    length_sortByFitnessDesc _
  have heP := length_speciesElitesOf cfg (predHalf pop)
  have heY := length_speciesElitesOf cfg (preyHalf pop)
  have hrP := length_rescueFor cfg factory o.rescuePredTraitRand o.rescuePredTraitNoise
    o.rescuePredWRand o.rescuePredWNoise
    ((evolveElites cfg factory pop).filter (·.isPredator)).length (predHalf pop)
  have hrY := length_rescueFor cfg factory o.rescuePreyTraitRand o.rescuePreyTraitNoise
    o.rescuePreyWRand o.rescuePreyWNoise
    ((evolveElites cfg factory pop).filter (fun c => !c.isPredator)).length (preyHalf pop)
  have helite : (evolveElites cfg factory pop).length =
      (speciesElitesOf cfg (predHalf pop)).length +
        (speciesElitesOf cfg (preyHalf pop)).length := by
    simp [evolveElites]
  unfold evolve
  apply fill_and_append
  · rw [List.length_append, List.length_append, helite]
    omega
  · exact hts
  · intro hp
    have : (sortByFitnessDesc pop).length = pop.length := length_sortByFitnessDesc pop
    intro hnil
    rw [hnil] at this
    simp at this
    omega

theorem evolve_length_witness :
    0 < cfgW.tournamentSize ∧
      ∃ out, evolve cfgW [] factoryW evOracleW = some out ∧ out.length = ([] : List Creature).length :=
  ⟨by decide, evolve_length cfgW [] factoryW evOracleW (by decide)⟩

/-! ## Lemmas and theorems: prey-only fitness monotonicity -/

theorem spawnedEnergy_nonneg (e : ℚ) (h : spawnedEnergy e) : 0 ≤ e := by
  obtain ⟨r, hr0, -, h⟩ := h
  have h15 : 0 ≤ r * 15 := by positivity
  have h25 : 0 ≤ r * 25 := by positivity
  have h20 : 0 ≤ r * 20 := by positivity
  rcases h with h | h | h <;> rw [h] <;> linarith

theorem creatureTick_fitness (c : Creature) (cost : ℚ) (eaten : List ℚ) :
    (creatureTick c cost eaten).fitness = c.fitness + eaten.sum + 1/100 := by
  simp [creatureTick, foldl_eatStep_fitness]

theorem updateCreatures_fitness_mono (cost : ℕ → ℚ) (eaten : ℕ → List ℚ)
    (h : ∀ i, ∀ e ∈ eaten i, 0 ≤ e) :
    ∀ (i0 : ℕ) (cs : List Creature),
      List.Forall₂ (fun a b => a.fitness ≤ b.fitness) cs (updateCreatures cost eaten i0 cs) := by
  intro i0 cs
  induction cs generalizing i0 with
  | nil => exact List.Forall₂.nil
  | cons c t ih =>
      refine List.Forall₂.cons ?_ (ih (i0 + 1))
      split
      · rw [creatureTick_fitness]
        have hsum : 0 ≤ (eaten i0).sum := List.sum_nonneg (h i0)
        linarith
      · exact le_rfl

theorem run_inv (w : WorldSt) (o : SimOracle)
    (htick : w.tick = 0) (hgen : 100 < w.generationLength)
    (halive : ∀ k < 100, 0 < aliveCount (tickedCreatures w o k)) :
    ∀ k ≤ 100, (run w o k).1.tick = k ∧
      (run w o k).1.generationLength = w.generationLength ∧
      (0 < k → (run w o k).2 = false ∧
        (run w o k).1.creatures = tickedCreatures w o (k - 1)) := by
  intro k
  induction k with
  | zero => exact fun _ => ⟨htick, rfl, fun h => absurd h (by omega)⟩
  | succ n ih =>
      intro hk
      obtain ⟨ht, hg, -⟩ := ih (by omega)
      have hcond : ¬((run w o n).1.generationLength ≤ (run w o n).1.tick + 1 ∨
          aliveCount (updateCreatures (o.cost n) (o.eaten n) 0 (run w o n).1.creatures) = 0) := by
        push_neg
        constructor
        · rw [hg, ht]; omega
        · have := halive n (by omega)
          unfold tickedCreatures at this
          omega
      have hstep : run w o (n + 1) =
          (⟨(run w o n).1.tick + 1, (run w o n).1.generationLength,
              updateCreatures (o.cost n) (o.eaten n) 0 (run w o n).1.creatures,
              (run w o n).1.balancing, (run w o n).1.ga⟩, false) := by
        show worldTick (run w o n).1 (o.cost n) (o.eaten n) (o.evo n) (o.factory n) = _
        unfold worldTick
        rw [if_neg hcond]
      rw [hstep]
      refine ⟨by rw [ht], hg, fun _ => ⟨rfl, ?_⟩⟩
      rfl

/-- C8: in a prey-only world whose agents survive every one of the first
100 ticks (ample food), with the tick counter starting at 0 and more than
100 ticks per generation, no agent's accumulated fitness decreases from one
tick to the next (each tick adds the non-negative eaten food energies plus
the 0.01 survival increment), and the generation-end transition — and with
it the population penalty step — is never reached. -/
theorem prey_only_fitness_monotone (w : WorldSt) (o : SimOracle)
    (htick : w.tick = 0) (hgen : 100 < w.generationLength)
    (_hprey : ∀ c ∈ w.creatures, c.isPredator = false)
    (halive : ∀ k < 100, 0 < aliveCount (tickedCreatures w o k))
    (heaten : ∀ k i, ∀ e ∈ o.eaten k i, spawnedEnergy e) :
    ∀ k < 100,
      List.Forall₂ (fun a b => a.fitness ≤ b.fitness)
        ((run w o k).1.creatures) ((run w o (k + 1)).1.creatures) ∧
      (run w o (k + 1)).2 = false := by
  intro k hk
  obtain ⟨-, -, hsucc⟩ := run_inv w o htick hgen halive (k + 1) (by omega)
  obtain ⟨hflag, hcrs⟩ := hsucc (by omega)
  refine ⟨?_, hflag⟩
  rw [hcrs]
  show List.Forall₂ _ _ (tickedCreatures w o (k + 1 - 1))
  have hk1 : k + 1 - 1 = k := by omega
  rw [hk1]
  unfold tickedCreatures
  exact updateCreatures_fitness_mono (o.cost k) (o.eaten k)
    (fun i e he => spawnedEnergy_nonneg e (heaten k i e he)) 0 ((run w o k).1.creatures)

theorem runW_creatures_form :
    ∀ k < 1000, (run wW oW k).1.tick = k ∧ (run wW oW k).1.generationLength = 1000 ∧
      ∃ f : ℚ, (run wW oW k).1.creatures = [{ cW with fitness := f }] := by
  intro k
  induction k with
  | zero =>
      refine fun _ => ⟨rfl, rfl, 0, ?_⟩
      show [cW] = _
      norm_num [cW]
  | succ n ih =>
      intro hk
      obtain ⟨ht, hg, f, hc⟩ := ih (by omega)
      have hupd : updateCreatures (oW.cost n) (oW.eaten n) 0 [{ cW with fitness := f }] =
          [{ cW with fitness := f + 1/100 }] := by
        show [if ({ cW with fitness := f } : Creature).isAliveB then
            creatureTick { cW with fitness := f } 0 [] else { cW with fitness := f }] = _
        have halive : ({ cW with fitness := f } : Creature).isAliveB = true := by
          simp [Creature.isAliveB, cW]
        rw [halive, if_pos rfl]
        simp [creatureTick, cW]
      have hcond : ¬((run wW oW n).1.generationLength ≤ (run wW oW n).1.tick + 1 ∨
          aliveCount (updateCreatures (oW.cost n) (oW.eaten n) 0 (run wW oW n).1.creatures) = 0) := by
        push_neg
        refine ⟨?_, ?_⟩
        · rw [hg, ht]; omega
        · rw [hc, hupd]
          simp [aliveCount, Creature.isAliveB, cW]
      have hstep : run wW oW (n + 1) =
          (⟨(run wW oW n).1.tick + 1, (run wW oW n).1.generationLength,
              updateCreatures (oW.cost n) (oW.eaten n) 0 (run wW oW n).1.creatures,
              (run wW oW n).1.balancing, (run wW oW n).1.ga⟩, false) := by
        show worldTick (run wW oW n).1 (oW.cost n) (oW.eaten n) (oW.evo n) (oW.factory n) = _
        unfold worldTick
        rw [if_neg hcond]
      rw [hstep]
      exact ⟨by rw [ht], hg, f + 1/100, by rw [hc, hupd]⟩

theorem prey_only_fitness_monotone_witness :
    wW.tick = 0 ∧ 100 < wW.generationLength ∧
      (∀ c ∈ wW.creatures, c.isPredator = false) ∧
      (∀ k < 100, 0 < aliveCount (tickedCreatures wW oW k)) ∧
      (∀ k i, ∀ e ∈ oW.eaten k i, spawnedEnergy e) ∧
      (∀ k < 100,
        List.Forall₂ (fun a b => a.fitness ≤ b.fitness)
          ((run wW oW k).1.creatures) ((run wW oW (k + 1)).1.creatures) ∧
        (run wW oW (k + 1)).2 = false) := by
  have halive : ∀ k < 100, 0 < aliveCount (tickedCreatures wW oW k) := by
    intro k hk
    obtain ⟨-, -, f, hc⟩ := runW_creatures_form k (by omega)
    unfold tickedCreatures
    rw [hc]
    show 0 < aliveCount [if ({ cW with fitness := f } : Creature).isAliveB then
      creatureTick { cW with fitness := f } 0 [] else { cW with fitness := f }]
    have h1 : ({ cW with fitness := f } : Creature).isAliveB = true := by
      simp [Creature.isAliveB, cW]
    rw [h1, if_pos rfl]
    simp [aliveCount, Creature.isAliveB, creatureTick, cW]
  have hprey : ∀ c ∈ wW.creatures, c.isPredator = false := by
    intro c hc
    simp only [wW, List.mem_singleton] at hc
    rw [hc]
    rfl
  have heaten : ∀ k i, ∀ e ∈ oW.eaten k i, spawnedEnergy e := by
    intro k i e he
    simp [oW] at he
  exact ⟨rfl, by norm_num [wW], hprey, halive, heaten,
    prey_only_fitness_monotone wW oW rfl (by norm_num [wW]) hprey halive heaten⟩

end LifeSim
